import Mathlib

/-!
# cmote: periodic sensor sampling published over CoAP (openapps/cmote/cmote.c)

A shallow embedding of `cmote.c`.  The five functions of the module
(`cmote_init`, `cmote_timer_cb`, `cmote_task_cb`, `cmote_recieve`,
`cmote_sendDone`) are translated statement by statement into functions on an
explicit `State`.  Every call that `cmote.c` makes into another module is
appended to `State.trace`, so that "is called", "is called exactly once" and
"is called before" are statements about that list.

The collaborators of `cmote.c` (packet queue, timers, scheduler, CoAP
registry, ADC driver) live in other files; they are modelled from the
specification and marked as such.  Constants declared in other headers are
the fields of `Consts`.
-/

namespace Cmote

/-! ## Types declared in other headers -/

/-- Return type `owerror_t` of the stack. -/
inductive owerror_t
  | E_SUCCESS
  | E_FAIL
  deriving DecidableEq, Repr

/-- Constants that `cmote.c` uses and that are declared in other headers
(component identifiers, error codes, CoAP option numbers, driver constants).
They are parameters of the embedding. -/
structure Consts where
  COMPONENT_NULL : Nat
  COMPONENT_CMOTE : Nat
  ERR_NO_FREE_PACKET_BUFFER : Nat
  COAP_OPTION_NUM_URIPATH : Nat
  COAP_OPTION_NUM_CONTENTFORMAT : Nat
  COAP_MEDTYPE_APPOCTETSTREAM : Nat
  COAP_TYPE_NON : Nat
  COAP_CODE_REQ_PUT : Nat
  WKP_UDP_COAP : Nat
  ADDR_128B : Nat
  ipAddr_motesEecs : List Nat
  TIMER_PERIODIC : Nat
  TIME_MS : Nat
  TASKPRIO_COAP : Nat
  SOCADC_AIN6 : Nat
  SOCADC_12_BIT : Nat
  SOCADC_REF_INTERNAL : Nat
  SOCADC_12_BIT_RSHIFT : Nat
  deriving DecidableEq, Repr

/-- The functions of `cmote.c` that are passed around as function pointers. -/
inductive Callback
  | cmote_timer_cb
  | cmote_task_cb
  | cmote_recieve
  | cmote_sendDone
  deriving DecidableEq, Repr

/-- Network address `open_addr_t` (only the 128-bit view is used here). -/
structure open_addr_t where
  type : Nat
  addr_128b : List Nat
  deriving DecidableEq, Repr

/-- Modelled from the spec: the packet buffer `OpenQueueEntry_t`, declared
outside `cmote.c`.  It carries the component tags, "a payload region
supporting prepend-growth (reserve-at-front semantics)" and the destination
address and port.  `payload` is the list of bytes from the payload pointer to
the end of the region, so `payload[i]` in C is index `i` of this list. -/
structure OpenQueueEntry_t where
  creator : Nat
  owner : Nat
  payload : List Nat
  l4_destination_port : Nat
  l3_destinationAdd : open_addr_t
  deriving DecidableEq, Repr

/-- Resource descriptor `coap_resource_desc_t` (declared in opencoap.h); the
fields are the ones `cmote_init` assigns.  A pointer to a constant byte array
is modelled by the array, `NULL` by `none`. -/
structure coap_resource_desc_t where
  path0len : Nat
  path0val : Option (List Nat)
  path1len : Nat
  path1val : Option (List Nat)
  componentID : Nat
  discoverable : Bool
  callbackRx : Option Callback
  callbackSendDone : Option Callback
  deriving DecidableEq, Repr

/-- The module variables `cmote_vars_t` of cmote.h. -/
structure cmote_vars_t where
  desc : coap_resource_desc_t
  timerId : Nat
  deriving DecidableEq, Repr

/-- The variables of the sibling application `cexample`, of which `cmote.c`
names the descriptor. -/
structure cexample_vars_t where
  desc : coap_resource_desc_t
  deriving DecidableEq, Repr

/-- Modelled from the spec: a timer of the Periodic Trigger, "opaque
identifier, period, periodic/one-shot mode, callback reference"; the handle
is the position of the timer in the table. -/
structure opentimers_t where
  period : Nat
  type : Nat
  timeType : Nat
  callback : Callback
  isrunning : Bool
  deriving DecidableEq, Repr

/-- One call made by `cmote.c` into another module, with its arguments.
A packet pointer is the index of the buffer in the queue (`none` is `NULL`);
`opencoap_send` also records the content of the buffer at the call. -/
inductive Call
  | ieee154e_isSynch
  | idmanager_getIsDAGroot
  | opentimers_start (period type timeType : Nat) (cb : Callback)
  | opentimers_stop (id : Nat)
  | scheduler_push_task (cb : Callback) (prio : Nat)
  | SOCADCSingleConfigure (resolution reference : Nat)
  | SOCADCSingleStart (channel : Nat)
  | SOCADCEndOfCOnversionGet
  | SOCADCDataGet
  | openqueue_getFreePacketBuffer (creator : Nat)
  | openqueue_freePacketBuffer (pkt : Option Nat)
  | openserial_printError (component err arg1 arg2 : Nat)
  | packetfunctions_reserveHeaderSize (pkt : Nat) (n : Nat)
  | opencoap_register (desc : coap_resource_desc_t)
  | opencoap_send (pkt : Nat) (msg : Option OpenQueueEntry_t)
      (type code numOptions : Nat) (desc : coap_resource_desc_t)
  deriving DecidableEq, Repr

/-- The explicit state: what the environment will answer, the state of the
collaborating modules, the globals named by `cmote.c`, and the calls made. -/
structure State where
  /-- The value `ieee154e_isSynch()` returns. -/
  isSynch : Bool
  /-- The value `idmanager_getIsDAGroot()` returns. -/
  isDAGroot : Bool
  /-- Number of polls of the end-of-conversion flag that read false after a
  conversion is started; `none` is a peripheral that never completes. -/
  adcLatency : Option Nat
  /-- The content of the ADC data register once the conversion is done. -/
  adcData : Nat
  /-- The value the next `opencoap_send` returns. -/
  coapOutcome : owerror_t
  /-- Polls still to read false for the conversion in progress. -/
  adcCountdown : Option Nat
  /-- The packet buffer pool. -/
  queue : List OpenQueueEntry_t
  /-- The timer table. -/
  timers : List opentimers_t
  /-- The tasks pushed to the scheduler and not yet run. -/
  tasks : List (Callback × Nat)
  /-- The descriptors registered with the CoAP layer. -/
  resources : List coap_resource_desc_t
  cmote_vars : cmote_vars_t
  cexample_vars : cexample_vars_t
  trace : List Call
  deriving DecidableEq, Repr

/-! ## defines of cmote.c -/

/-- The inter-packet period in ms, `#define CMOTEPERIOD 15000`. -/
def CMOTEPERIOD : Nat := 15000

/-- The payload length, `#define PAYLOADLEN 40`. -/
def PAYLOADLEN : Nat := 40

/-- The array `const uint8_t cmote_path0[] = "cmote"`: five characters and
the terminating zero. -/
def cmote_path0 : List Nat := [0x63, 0x6d, 0x6f, 0x74, 0x65, 0]

/-- The C operator `sizeof` on a byte array. -/
def sizeof (a : List Nat) : Nat := a.length

/-! ## Helpers of the embedding -/

/-- Replace the element at position `i` by its image under `f` (a write
through a pointer to that element); out of range nothing changes. -/
def modifyAt {α : Type} (f : α → α) : List α → Nat → List α
  | [], _ => []
  | x :: xs, 0 => f x :: xs
  | x :: xs, i + 1 => x :: modifyAt f xs i

/-- Append a call to the trace. -/
def State.call (s : State) (c : Call) : State :=
  { s with trace := s.trace ++ [c] }

/-- A write through the packet pointer `pkt`. -/
def State.pktWrite (s : State) (pkt : Nat) (f : OpenQueueEntry_t → OpenQueueEntry_t) : State :=
  { s with queue := modifyAt f s.queue pkt }

/-- The libc function `memcpy(dst, src, n)` on byte arrays: `dst[j] = src[j]`
for `j < n`. -/
def memcpy (dst src : List Nat) (n : Nat) : List Nat :=
  (List.range n).foldl (fun d j => d.set j (src.getD j 0)) dst

/-- The calls made between state `s` and a later state `t`. -/
def callsOf (s t : State) : List Call := t.trace.drop s.trace.length

/-! ## Collaborating modules -/

/-- Modelled from the spec: `ieee154e_isSynch` of the MAC layer, "a
synchronization-gate flag (read from the network layer, not owned by this
task)". -/
def ieee154e_isSynch (s : State) : Bool × State :=
  (s.isSynch, s.call Call.ieee154e_isSynch)

/-- Modelled from the spec: `idmanager_getIsDAGroot`, the root-role flag read
by the task. -/
def idmanager_getIsDAGroot (s : State) : Bool × State :=
  (s.isDAGroot, s.call Call.idmanager_getIsDAGroot)

/-- Modelled from the spec: `opentimers_start` of the Periodic Trigger,
"start(period_ms, mode, callback) -> handle"; the new timer is running. -/
def opentimers_start (period type timeType : Nat) (cb : Callback) (s : State) : Nat × State :=
  (s.timers.length,
   { s with
     timers := s.timers ++ [{ period := period, type := type, timeType := timeType,
                              callback := cb, isrunning := true }],
     trace := s.trace ++ [Call.opentimers_start period type timeType cb] })

/-- Modelled from the spec: `opentimers_stop`, "stop(handle)", "idempotent
and safe to call multiple times". -/
def opentimers_stop (id : Nat) (s : State) : State :=
  { s with
    timers := modifyAt (fun t => { t with isrunning := false }) s.timers id,
    trace := s.trace ++ [Call.opentimers_stop id] }

/-- Modelled from the spec: `scheduler_push_task`, which "only enqueues a
deferred unit of work at a fixed priority class". -/
def scheduler_push_task (cb : Callback) (prio : Nat) (s : State) : State :=
  { s with
    tasks := s.tasks ++ [(cb, prio)],
    trace := s.trace ++ [Call.scheduler_push_task cb prio] }

/-- Modelled from the spec: `SOCADCSingleConfigure` of the sampling
peripheral driver; it only records the configuration request. -/
def SOCADCSingleConfigure (resolution reference : Nat) (s : State) : State :=
  s.call (Call.SOCADCSingleConfigure resolution reference)

/-- Modelled from the spec: `SOCADCSingleStart`, "trigger the sampling
peripheral"; the conversion started needs `adcLatency` polls. -/
def SOCADCSingleStart (channel : Nat) (s : State) : State :=
  { s with
    adcCountdown := s.adcLatency,
    trace := s.trace ++ [Call.SOCADCSingleStart channel] }

/-- Modelled from the spec: `SOCADCEndOfCOnversionGet`, the flag by which
"conversion completion is signaled"; a peripheral that never completes always
reads false. -/
def SOCADCEndOfCOnversionGet (s : State) : Bool × State :=
  match s.adcCountdown with
  | some 0 => (true, s.call Call.SOCADCEndOfCOnversionGet)
  | some (n + 1) =>
    (false, { s with adcCountdown := some n,
                     trace := s.trace ++ [Call.SOCADCEndOfCOnversionGet] })
  | none => (false, s.call Call.SOCADCEndOfCOnversionGet)

/-- Modelled from the spec: `SOCADCDataGet`, "read the raw sample value", a
16-bit register. -/
def SOCADCDataGet (s : State) : Nat × State :=
  (s.adcData % 65536, s.call Call.SOCADCDataGet)

/-- Modelled from the spec: the search of the Packet Buffer Pool for a free
buffer.  A buffer is "Free (owned by pool)" when its owner tag is `null`; the
result is the position of the first such buffer. -/
def findFree (null : Nat) : List OpenQueueEntry_t → Option Nat
  | [] => none
  | e :: es => if e.owner = null then some 0 else (findFree null es).map (· + 1)

/-- Modelled from the spec: the number of free buffers of the Packet Buffer
Pool ("pool has `k` free buffers"). -/
def freeCount (null : Nat) : List OpenQueueEntry_t → Nat
  | [] => 0
  | e :: es => (if e.owner = null then 1 else 0) + freeCount null es

/-- Modelled from the spec: `openqueue_getFreePacketBuffer` of the Packet
Buffer Pool, "request a buffer from the pool tagged to this component";
`NULL` when no buffer is free. -/
def openqueue_getFreePacketBuffer (k : Consts) (creator : Nat) (s : State) : Option Nat × State :=
  match findFree k.COMPONENT_NULL s.queue with
  | none => (none, s.call (Call.openqueue_getFreePacketBuffer creator))
  | some i =>
    (some i,
     { s with
       queue := modifyAt (fun e => { e with creator := creator, owner := creator }) s.queue i,
       trace := s.trace ++ [Call.openqueue_getFreePacketBuffer creator] })

/-- Modelled from the spec: a buffer "Released (returned to pool)" is free
again and its payload region is empty. -/
def openqueue_reset_entry (k : Consts) (e : OpenQueueEntry_t) : OpenQueueEntry_t :=
  { e with creator := k.COMPONENT_NULL, owner := k.COMPONENT_NULL, payload := [] }

/-- Modelled from the spec: `openqueue_freePacketBuffer` of the Packet Buffer
Pool, the release call.  The null pointer designates no buffer of the pool,
which such a call leaves as it is. -/
def openqueue_freePacketBuffer (k : Consts) (pkt : Option Nat) (s : State) : State :=
  match pkt with
  | none => s.call (Call.openqueue_freePacketBuffer none)
  | some i =>
    { s with
      queue := modifyAt (openqueue_reset_entry k) s.queue i,
      trace := s.trace ++ [Call.openqueue_freePacketBuffer (some i)] }

/-- Modelled from the spec: `openserial_printError`, "report an error". -/
def openserial_printError (component err arg1 arg2 : Nat) (s : State) : State :=
  s.call (Call.openserial_printError component err arg1 arg2)

/-- Modelled from the spec: `packetfunctions_reserveHeaderSize`,
"reserve-at-front semantics": the payload region grows by `n` bytes at the
front.  The new bytes hold no defined value until written (0 here). -/
def packetfunctions_reserveHeaderSize (pkt : Nat) (n : Nat) (s : State) : State :=
  { s with
    queue := modifyAt (fun e => { e with payload := List.replicate n 0 ++ e.payload }) s.queue pkt,
    trace := s.trace ++ [Call.packetfunctions_reserveHeaderSize pkt n] }

/-- Modelled from the spec: `opencoap_register` of the Resource Registry,
"register(descriptor)". -/
def opencoap_register (desc : coap_resource_desc_t) (s : State) : State :=
  { s with
    resources := s.resources ++ [desc],
    trace := s.trace ++ [Call.opencoap_register desc] }

/-- Modelled from the spec: `opencoap_send` of the Resource Registry, which
"accepts outbound buffers for transmission" and answers synchronously with
success or failure; the answer is the environment's.  The buffer is not
returned to the pool by this call. -/
def opencoap_send (pkt : Nat) (type code numOptions : Nat) (desc : coap_resource_desc_t)
    (s : State) : owerror_t × State :=
  (s.coapOutcome, s.call (Call.opencoap_send pkt s.queue[pkt]? type code numOptions desc))

/-! ## cmote.c -/

/-- The function `cmote_sendDone`: the stack indicates that the packet was
sent. -/
def cmote_sendDone (k : Consts) (msg : Option Nat) (_error : owerror_t) (s : State) : State :=
  openqueue_freePacketBuffer k msg s

/-- The function `cmote_recieve`: called when a CoAP message is received for
this resource.  The header and the options are passed by pointer; they are
returned next to the result. -/
def cmote_recieve {H O : Type} (_msg : Option Nat) (coap_header : H) (coap_options : O)
    (s : State) : owerror_t × H × O × State :=
  -- we shouldn't be sending any packets to the mote (though we could!)
  (owerror_t.E_FAIL, coap_header, coap_options, s)

/-- The function `cmote_timer_cb`: the timer has fired, push the task to the
scheduler with CoAP priority. -/
def cmote_timer_cb (k : Consts) (s : State) : State :=
  scheduler_push_task Callback.cmote_task_cb k.TASKPRIO_COAP s

/-- The function `cmote_init`. -/
def cmote_init (k : Consts) (s : State) : State :=
  -- prepare the resource descriptor for the /cmote path
  let s := { s with cmote_vars.desc.path0len := sizeof cmote_path0 - 1 }
  let s := { s with cmote_vars.desc.path0val := some cmote_path0 }
  let s := { s with cmote_vars.desc.path1len := 0 }
  let s := { s with cmote_vars.desc.path1val := none }
  let s := { s with cmote_vars.desc.componentID := k.COMPONENT_CMOTE }
  let s := { s with cexample_vars.desc.discoverable := true }
  let s := { s with cmote_vars.desc.callbackRx := some Callback.cmote_recieve }
  let s := { s with cmote_vars.desc.callbackSendDone := some Callback.cmote_sendDone }
  -- initialize ADC
  let s := SOCADCSingleConfigure k.SOCADC_12_BIT k.SOCADC_REF_INTERNAL s
  -- Register and start timer
  let s := opencoap_register s.cmote_vars.desc s
  let r := opentimers_start CMOTEPERIOD k.TIMER_PERIODIC k.TIME_MS Callback.cmote_timer_cb s
  { r.2 with cmote_vars.timerId := r.1 }

/-- The loop `while(!SOCADCEndOfCOnversionGet());` with at most `fuel` polls;
`none` when the flag was still false at the last of them. -/
def waitEndOfConversion : Nat → State → Option State
  | 0, _ => none
  | fuel + 1, s =>
    match SOCADCEndOfCOnversionGet s with
    | (true, s1) => some s1
    | (false, s1) => waitEndOfConversion fuel s1

/-- The loop `for (i=0; i<PAYLOADLEN; i++) pkt->payload[i] = i;`. -/
def fillPayload (pkt : Nat) (s : State) : State :=
  (List.range PAYLOADLEN).foldl
    (fun s i => s.pktWrite pkt (fun e => { e with payload := e.payload.set i (i % 256) })) s

/-- Lines 113-124 of `cmote_task_cb`: take ownership of the packet and write
the CoAP payload for the sample `adc_value`. -/
def cmote_task_payload (k : Consts) (adc_value : Nat) (pkt : Nat) (s : State) : State :=
  -- take ownership of the packet
  let s := s.pktWrite pkt (fun e => { e with creator := k.COMPONENT_CMOTE })
  let s := s.pktWrite pkt (fun e => { e with owner := k.COMPONENT_CMOTE })
  -- CoAP payload
  let s := packetfunctions_reserveHeaderSize pkt PAYLOADLEN s
  let s := fillPayload pkt s
  let hi := ((adc_value >>> 8) &&& 0xFF) % 256
  let s := s.pktWrite pkt (fun e => { e with payload := e.payload.set 0 hi })
  let lo := ((adc_value >>> 0) &&& 0xFF) % 256
  let s := s.pktWrite pkt (fun e => { e with payload := e.payload.set 1 lo })
  s

/-- Lines 129-143 of `cmote_task_cb`: the content-type option, the
location-path option and the metadata. -/
def cmote_task_framing (k : Consts) (pkt : Nat) (s : State) : State :=
  -- content-type option
  let s := packetfunctions_reserveHeaderSize pkt 2 s
  let b0 := (((k.COAP_OPTION_NUM_CONTENTFORMAT - k.COAP_OPTION_NUM_URIPATH) <<< 4) ||| 1) % 256
  let s := s.pktWrite pkt (fun e => { e with payload := e.payload.set 0 b0 })
  let b1 := k.COAP_MEDTYPE_APPOCTETSTREAM % 256
  let s := s.pktWrite pkt (fun e => { e with payload := e.payload.set 1 b1 })
  -- location-path option
  let s := packetfunctions_reserveHeaderSize pkt (sizeof cmote_path0 - 1) s
  let s := s.pktWrite pkt (fun e =>
    { e with payload := memcpy e.payload cmote_path0 (sizeof cmote_path0 - 1) })
  let s := packetfunctions_reserveHeaderSize pkt 1 s
  let b := ((k.COAP_OPTION_NUM_URIPATH <<< 4) ||| (sizeof cmote_path0 - 1)) % 256
  let s := s.pktWrite pkt (fun e => { e with payload := e.payload.set 0 b })
  -- metadata
  let s := s.pktWrite pkt (fun e => { e with l4_destination_port := k.WKP_UDP_COAP })
  let s := s.pktWrite pkt (fun e => { e with l3_destinationAdd.type := k.ADDR_128B })
  let s := s.pktWrite pkt (fun e => { e with l3_destinationAdd.addr_128b :=
                                           memcpy e.l3_destinationAdd.addr_128b k.ipAddr_motesEecs 16 })
  s

/-- Lines 103-157 of `cmote_task_cb`: create the CoAP packet for the sample
`adc_value`, send it, and free it if sending fails. -/
def cmote_task_send (k : Consts) (adc_value : Nat) (s : State) : State :=
  -- create a CoAP RD packet
  let r := openqueue_getFreePacketBuffer k k.COMPONENT_CMOTE s
  match r.1 with
  | none =>
    let s := openserial_printError k.COMPONENT_CMOTE k.ERR_NO_FREE_PACKET_BUFFER 0 0 r.2
    let s := openqueue_freePacketBuffer k none s
    s
  | some pkt =>
    let s := cmote_task_payload k adc_value pkt r.2
    let s := cmote_task_framing k pkt s
    -- send
    let r := opencoap_send pkt k.COAP_TYPE_NON k.COAP_CODE_REQ_PUT 1 s.cmote_vars.desc s
    -- avoid overflowing the queue if sending the packet fails
    if r.1 = owerror_t.E_FAIL then openqueue_freePacketBuffer k (some pkt) r.2
    else r.2

/-- The function `cmote_task_cb`: execute the measurement and send the result
in a CoAP packet.  `fuel` bounds the polls of the wait loop; the result is
`none` when the loop has not ended within them. -/
def cmote_task_cb (k : Consts) (fuel : Nat) (s : State) : Option State :=
  -- don't run if not synch
  let r := ieee154e_isSynch s
  if r.1 == false then some r.2 else
  -- don't run on DAGroot
  let r := idmanager_getIsDAGroot r.2
  if r.1 then some (opentimers_stop r.2.cmote_vars.timerId r.2) else
  -- Take ADC reading
  let s := SOCADCSingleStart k.SOCADC_AIN6 r.2
  match waitEndOfConversion fuel s with
  | none => none
  | some s =>
    let r := SOCADCDataGet s
    let adc_value := (r.1 >>> k.SOCADC_12_BIT_RSHIFT) % 65536
    some (cmote_task_send k adc_value r.2)

/-! ## The system around the task -/

/-- Modelled from the spec: the events of the "single-threaded, cooperative,
run-to-completion" node that concern this module. -/
inductive Event
  /-- The period of the timer `cmote_vars.timerId` has elapsed. -/
  | fire
  /-- The scheduler runs the oldest pending task (its wait loop bounded by
  `fuel` polls). -/
  | dispatch (fuel : Nat)
  /-- The stack reports the outcome of a submitted send. -/
  | sendDone (msg : Option Nat) (error : owerror_t)
  /-- The environment changes what it will answer. -/
  | env (isSynch isDAGroot : Bool) (adcLatency : Option Nat) (adcData : Nat)
      (coapOutcome : owerror_t)

/-- Modelled from the spec: the Periodic Trigger "fires unconditionally every
period until stop(handle) is called"; a fire invokes the callback of the
timer, a stopped or absent timer does not fire. -/
def opentimers_fire (k : Consts) (id : Nat) (s : State) : State :=
  match s.timers[id]? with
  | none => s
  | some t =>
    if t.isrunning then
      match t.callback with
      | Callback.cmote_timer_cb => cmote_timer_cb k s
      | _ => s
    else s

/-- Modelled from the spec: the cooperative scheduler runs one pending unit
of work to completion ("once the deferred Sensor Task body starts, it runs
uninterrupted until it returns"). -/
def scheduler_dispatch (k : Consts) (fuel : Nat) (s : State) : Option State :=
  match s.tasks with
  | [] => some s
  | (Callback.cmote_task_cb, _) :: rest => cmote_task_cb k fuel { s with tasks := rest }
  | _ :: rest => some { s with tasks := rest }

/-- Modelled from the spec: the effect of one event of the node; `none` when
the task dispatched has not returned within its fuel. -/
def step (k : Consts) (ev : Event) (s : State) : Option State :=
  match ev with
  | Event.fire => some (opentimers_fire k s.cmote_vars.timerId s)
  | Event.dispatch fuel => scheduler_dispatch k fuel s
  | Event.sendDone msg error => some (cmote_sendDone k msg error s)
  | Event.env a b c d e =>
    some { s with isSynch := a, isDAGroot := b, adcLatency := c, adcData := d, coapOutcome := e }

/-- Modelled from the spec: the effect of a sequence of events, one after the
other; `none` when a task has not returned within its fuel. -/
def run (k : Consts) : List Event → State → Option State
  | [], s => some s
  | ev :: evs, s =>
    match step k ev s with
    | none => none
    | some t => run k evs t

/-- Whether an event is a fire of the timer. -/
def Event.isFire : Event → Bool
  | Event.fire => true
  | _ => false

/-! ## Vocabulary of the properties -/

/-- A request for a buffer from the pool. -/
def Call.isAlloc : Call → Bool
  | Call.openqueue_getFreePacketBuffer _ => true
  | _ => false

/-- A release of a buffer to the pool. -/
def Call.isRelease : Call → Bool
  | Call.openqueue_freePacketBuffer _ => true
  | _ => false

/-- A report of an error. -/
def Call.isError : Call → Bool
  | Call.openserial_printError _ _ _ _ => true
  | _ => false

/-- A submission of a packet to the CoAP layer. -/
def Call.isSend : Call → Bool
  | Call.opencoap_send _ _ _ _ _ _ => true
  | _ => false

/-- A call to the ADC driver: start, poll or read. -/
def Call.isAdc : Call → Bool
  | Call.SOCADCSingleConfigure _ _ => true
  | Call.SOCADCSingleStart _ => true
  | Call.SOCADCEndOfCOnversionGet => true
  | Call.SOCADCDataGet => true
  | _ => false

/-- The number of bytes a call reserves at the front of a buffer. -/
def Call.reserved : Call → Nat
  | Call.packetfunctions_reserveHeaderSize _ n => n
  | _ => 0

/-- A stop of a timer. -/
def Call.isTimerStop : Call → Bool
  | Call.opentimers_stop _ => true
  | _ => false

/-- The timer of the task does not fire: it is stopped, or there is none. -/
def TimerOff (s : State) : Prop :=
  ∀ x, s.timers[s.cmote_vars.timerId]? = some x → x.isrunning = false

/-- The constants fit the fields they are written to: both option deltas fit
the high nibble of the option header, the media type fits a byte, and the
option numbers are in the order that makes the delta non-negative. -/
def Consts.WellFormed (k : Consts) : Prop :=
  k.COAP_OPTION_NUM_URIPATH < 16 ∧
  k.COAP_OPTION_NUM_URIPATH ≤ k.COAP_OPTION_NUM_CONTENTFORMAT ∧
  k.COAP_OPTION_NUM_CONTENTFORMAT - k.COAP_OPTION_NUM_URIPATH < 16 ∧
  k.COAP_MEDTYPE_APPOCTETSTREAM < 256

/-- The sample `cmote_task_cb` computes from the data register. -/
def adcValue (k : Consts) (s : State) : Nat :=
  ((s.adcData % 65536) >>> k.SOCADC_12_BIT_RSHIFT) % 65536

/-- The calls of a cycle that passes both gates, up to and including the read
of the sample, when the conversion takes `n` polls reading false. -/
def sampleCalls (k : Consts) (n : Nat) : List Call :=
  [Call.ieee154e_isSynch, Call.idmanager_getIsDAGroot, Call.SOCADCSingleStart k.SOCADC_AIN6]
    ++ List.replicate (n + 1) Call.SOCADCEndOfCOnversionGet ++ [Call.SOCADCDataGet]

/-- The state of such a cycle after the read of the sample. -/
def sampled (k : Consts) (n : Nat) (s : State) : State :=
  { s with adcCountdown := some 0, trace := s.trace ++ sampleCalls k n }

/-- The payload as the specification lays it out: the sample as a 16-bit
big-endian integer, then every byte its own index, up to `PAYLOADLEN`. -/
def samplePayload (v : Nat) : List Nat :=
  [(v >>> 8) &&& 0xFF, v &&& 0xFF] ++ List.range' 2 (PAYLOADLEN - 2)

/-- The buffer `e` once allocated to `cmote` and holding the payload. -/
def payloadEntry (k : Consts) (v : Nat) (e : OpenQueueEntry_t) : OpenQueueEntry_t :=
  { e with creator := k.COMPONENT_CMOTE, owner := k.COMPONENT_CMOTE,
           payload := samplePayload v ++ e.payload }

/-- The buffer `e` once the options and the metadata are written. -/
def framingEntry (k : Consts) (e : OpenQueueEntry_t) : OpenQueueEntry_t :=
  { e with
    payload := ((k.COAP_OPTION_NUM_URIPATH <<< 4 ||| 5) % 256)
      :: 0x63 :: 0x6d :: 0x6f :: 0x74 :: 0x65
      :: (((k.COAP_OPTION_NUM_CONTENTFORMAT - k.COAP_OPTION_NUM_URIPATH) <<< 4 ||| 1) % 256)
      :: (k.COAP_MEDTYPE_APPOCTETSTREAM % 256) :: e.payload,
    l4_destination_port := k.WKP_UDP_COAP,
    l3_destinationAdd := { type := k.ADDR_128B,
                           addr_128b := memcpy e.l3_destinationAdd.addr_128b k.ipAddr_motesEecs 16 } }

/-- The buffer `e` as `cmote_task_cb` hands it to `opencoap_send`. -/
def builtEntry (k : Consts) (v : Nat) (e : OpenQueueEntry_t) : OpenQueueEntry_t :=
  framingEntry k (payloadEntry k v e)

/-- The calls of `cmote_task_cb` from the allocation of buffer `pkt` to its
submission with content `msg`. -/
def sendCalls (k : Consts) (pkt : Nat) (msg : OpenQueueEntry_t) (desc : coap_resource_desc_t) :
    List Call :=
  [Call.openqueue_getFreePacketBuffer k.COMPONENT_CMOTE,
   Call.packetfunctions_reserveHeaderSize pkt 40,
   Call.packetfunctions_reserveHeaderSize pkt 2,
   Call.packetfunctions_reserveHeaderSize pkt 5,
   Call.packetfunctions_reserveHeaderSize pkt 1,
   Call.opencoap_send pkt (some msg) k.COAP_TYPE_NON k.COAP_CODE_REQ_PUT 1 desc]

/-- The calls of `cmote_task_cb` after the read of the sample when the pool
has no free buffer. -/
def exhaustedCalls (k : Consts) : List Call :=
  [Call.openqueue_getFreePacketBuffer k.COMPONENT_CMOTE,
   Call.openserial_printError k.COMPONENT_CMOTE k.ERR_NO_FREE_PACKET_BUFFER 0 0,
   Call.openqueue_freePacketBuffer none]

/-! ## Concrete values for evaluation -/

/-- An assignment of the constants: the CoAP numbers of the Uri-Path option
(11), the Content-Format option (12) and the media type
application/octet-stream (42); sample values for the others. -/
def K0 : Consts :=
  { COMPONENT_NULL := 0, COMPONENT_CMOTE := 37, ERR_NO_FREE_PACKET_BUFFER := 43,
    COAP_OPTION_NUM_URIPATH := 11, COAP_OPTION_NUM_CONTENTFORMAT := 12,
    COAP_MEDTYPE_APPOCTETSTREAM := 42, COAP_TYPE_NON := 1, COAP_CODE_REQ_PUT := 3,
    WKP_UDP_COAP := 5683, ADDR_128B := 3,
    ipAddr_motesEecs := [0x20, 0x01, 0x04, 0x70, 0x00, 0x66, 0x00, 0x19,
                         0x00, 0x00, 0x00, 0x00, 0x00, 0x00, 0x00, 0x02],
    TIMER_PERIODIC := 0, TIME_MS := 0, TASKPRIO_COAP := 4,
    SOCADC_AIN6 := 6, SOCADC_12_BIT := 48, SOCADC_REF_INTERNAL := 0,
    SOCADC_12_BIT_RSHIFT := 4 }

/-- A descriptor with every field zero, as in zero-initialised memory. -/
def desc0 : coap_resource_desc_t :=
  { path0len := 0, path0val := none, path1len := 0, path1val := none, componentID := 0,
    discoverable := false, callbackRx := none, callbackSendDone := none }

/-- A free buffer of the pool. -/
def freeEntry : OpenQueueEntry_t :=
  { creator := 0, owner := 0, payload := [], l4_destination_port := 0,
    l3_destinationAdd := { type := 0, addr_128b := List.replicate 16 0 } }

/-- A buffer in use by another component. -/
def busyEntry : OpenQueueEntry_t :=
  { creator := 9, owner := 9, payload := [1, 2, 3], l4_destination_port := 0,
    l3_destinationAdd := { type := 0, addr_128b := List.replicate 16 0 } }

/-- The node at boot: zero-initialised globals, no timer, a pool of `queue`,
not synchronized. -/
def boot (queue : List OpenQueueEntry_t) : State :=
  { isSynch := false, isDAGroot := false, adcLatency := some 2, adcData := 0xABC0,
    coapOutcome := owerror_t.E_SUCCESS, adcCountdown := none, queue := queue,
    timers := [], tasks := [], resources := [],
    cmote_vars := { desc := desc0, timerId := 0 },
    cexample_vars := { desc := desc0 }, trace := [] }

/-- The node after `cmote_init`, synchronized, with the given root role, pool
and outcome of the next submission. -/
def ready (root : Bool) (queue : List OpenQueueEntry_t) (outcome : owerror_t) : State :=
  { cmote_init K0 (boot queue) with
    isSynch := true, isDAGroot := root, coapOutcome := outcome, trace := [] }

/-! ## Lemmas on the helpers -/

theorem modifyAt_modifyAt {α : Type} (f g : α → α) (l : List α) (i : Nat) :
    modifyAt g (modifyAt f l i) i = modifyAt (fun x => g (f x)) l i := by
  induction l generalizing i with
  | nil => rfl
  | cons x xs ih => cases i with
    | zero => rfl
    | succ i => simp [modifyAt, ih]

theorem getElem?_modifyAt {α : Type} (f : α → α) (l : List α) (i : Nat) :
    (modifyAt f l i)[i]? = l[i]?.map f := by
  induction l generalizing i with
  | nil => rfl
  | cons x xs ih => cases i with
    | zero => simp [modifyAt]
    | succ i => simp [modifyAt, ih]

theorem findFree_some {null : Nat} {l : List OpenQueueEntry_t} {i : Nat}
    (h : findFree null l = some i) : ∃ e, l[i]? = some e ∧ e.owner = null := by
  induction l generalizing i with
  | nil => simp [findFree] at h
  | cons x xs ih =>
    simp only [findFree] at h
    split at h
    · cases h; exact ⟨x, by simp, by assumption⟩
    · cases hx : findFree null xs with
      | none => simp [hx] at h
      | some j =>
        simp [hx] at h
        subst h
        simpa using ih hx

theorem findFree_none {null : Nat} {l : List OpenQueueEntry_t} :
    findFree null l = none ↔ freeCount null l = 0 := by
  induction l with
  | nil => simp [findFree, freeCount]
  | cons x xs ih =>
    simp only [findFree, freeCount]
    split
    · simp
    · simp [ih]

theorem freeCount_modifyAt (null : Nat) (f : OpenQueueEntry_t → OpenQueueEntry_t)
    {l : List OpenQueueEntry_t} {i : Nat} {e : OpenQueueEntry_t} (h : l[i]? = some e) :
    freeCount null (modifyAt f l i) + (if e.owner = null then 1 else 0)
      = freeCount null l + (if (f e).owner = null then 1 else 0) := by
  induction l generalizing i with
  | nil => simp at h
  | cons x xs ih => cases i with
    | zero =>
      simp at h; subst h
      simp only [modifyAt, freeCount]; omega
    | succ i =>
      simp at h
      have := ih h
      simp only [modifyAt, freeCount]; omega

theorem State.queue_congr (s : State) (T : List Call) (pkt : Nat)
    (F G : OpenQueueEntry_t → OpenQueueEntry_t) (h : ∀ e, F e = G e) :
    ({ s with queue := modifyAt F s.queue pkt, trace := T } : State)
      = { s with queue := modifyAt G s.queue pkt, trace := T } := by
  rw [funext h]

/-! ## Lemmas on the wait loop -/

theorem waitEndOfConversion_done (n : Nat) : ∀ (fuel : Nat) (s : State),
    s.adcCountdown = some n → n < fuel →
    waitEndOfConversion fuel s = some { s with
      adcCountdown := some 0,
      trace := s.trace ++ List.replicate (n + 1) Call.SOCADCEndOfCOnversionGet } := by
  induction n with
  | zero =>
    intro fuel s h hf
    cases fuel with
    | zero => omega
    | succ fuel =>
      simp [waitEndOfConversion, SOCADCEndOfCOnversionGet, h, State.call]
  | succ n ih =>
    intro fuel s h hf
    cases fuel with
    | zero => omega
    | succ fuel =>
      simp only [waitEndOfConversion, SOCADCEndOfCOnversionGet, h]
      rw [ih fuel _ rfl (by omega)]
      simp [List.replicate_succ]

theorem waitEndOfConversion_never : ∀ (fuel : Nat) (s : State),
    s.adcCountdown = none → waitEndOfConversion fuel s = none := by
  intro fuel
  induction fuel with
  | zero => intro s _; rfl
  | succ fuel ih =>
    intro s h
    simp only [waitEndOfConversion, SOCADCEndOfCOnversionGet, h]
    exact ih _ (by simp [State.call, h])

theorem waitEndOfConversion_short : ∀ (fuel : Nat) (s : State) (n : Nat),
    s.adcCountdown = some n → fuel ≤ n → waitEndOfConversion fuel s = none := by
  intro fuel
  induction fuel with
  | zero => intro s n _ _; rfl
  | succ fuel ih =>
    intro s n h hf
    cases n with
    | zero => omega
    | succ n =>
      simp only [waitEndOfConversion, SOCADCEndOfCOnversionGet, h]
      exact ih _ n rfl (by omega)

/-! ## Lemmas on the assembly of the packet -/

theorem range_PAYLOADLEN : List.range PAYLOADLEN =
    [0, 1, 2, 3, 4, 5, 6, 7, 8, 9, 10, 11, 12, 13, 14, 15, 16, 17, 18, 19, 20, 21, 22, 23, 24,
     25, 26, 27, 28, 29, 30, 31, 32, 33, 34, 35, 36, 37, 38, 39] := by
  decide

theorem and_255_mod (x : Nat) : (x &&& 0xFF) % 256 = x &&& 0xFF := by
  apply Nat.mod_eq_of_lt
  exact lt_of_le_of_lt Nat.and_le_right (by norm_num)

theorem cmote_task_payload_eq (k : Consts) (v pkt : Nat) (s : State) :
    cmote_task_payload k v pkt s = { s with
      queue := modifyAt (payloadEntry k v) s.queue pkt,
      trace := s.trace ++ [Call.packetfunctions_reserveHeaderSize pkt 40] } := by
  simp only [cmote_task_payload, fillPayload, range_PAYLOADLEN, State.pktWrite,
    packetfunctions_reserveHeaderSize, List.foldl_cons, List.foldl_nil, modifyAt_modifyAt]
  apply State.queue_congr
  intro e
  simp [payloadEntry, samplePayload, PAYLOADLEN, List.replicate, and_255_mod, List.range']

theorem cmote_task_framing_eq (k : Consts) (pkt : Nat) (s : State) :
    cmote_task_framing k pkt s = { s with
      queue := modifyAt (framingEntry k) s.queue pkt,
      trace := s.trace ++ [Call.packetfunctions_reserveHeaderSize pkt 2,
                           Call.packetfunctions_reserveHeaderSize pkt 5,
                           Call.packetfunctions_reserveHeaderSize pkt 1] } := by
  simp only [cmote_task_framing, State.pktWrite,
    packetfunctions_reserveHeaderSize, modifyAt_modifyAt, List.append_assoc, List.singleton_append]
  apply State.queue_congr
  intro e
  simp [framingEntry, memcpy, sizeof, cmote_path0, List.replicate, List.range, List.range.loop]

/-! ## Lemmas on the cycle -/

theorem cmote_task_send_exhausted (k : Consts) (v : Nat) (s : State)
    (h : findFree k.COMPONENT_NULL s.queue = none) :
    cmote_task_send k v s = { s with trace := s.trace ++ exhaustedCalls k } := by
  simp [cmote_task_send, openqueue_getFreePacketBuffer, h, openserial_printError,
    openqueue_freePacketBuffer, State.call, exhaustedCalls]

theorem cmote_task_send_built (k : Consts) (v pkt : Nat) (s : State) (e : OpenQueueEntry_t)
    (h : findFree k.COMPONENT_NULL s.queue = some pkt) (he : s.queue[pkt]? = some e) :
    cmote_task_send k v s =
      if s.coapOutcome = owerror_t.E_FAIL then
        { s with
          queue := modifyAt (fun e => openqueue_reset_entry k (builtEntry k v e)) s.queue pkt,
          trace := s.trace ++ (sendCalls k pkt (builtEntry k v e) s.cmote_vars.desc
                                ++ [Call.openqueue_freePacketBuffer (some pkt)]) }
      else
        { s with
          queue := modifyAt (builtEntry k v) s.queue pkt,
          trace := s.trace ++ sendCalls k pkt (builtEntry k v e) s.cmote_vars.desc } := by
  simp only [cmote_task_send, openqueue_getFreePacketBuffer, h, cmote_task_payload_eq,
    cmote_task_framing_eq, opencoap_send, openqueue_freePacketBuffer, State.call,
    modifyAt_modifyAt, getElem?_modifyAt, he, Option.map_some']
  have hb : (fun x : OpenQueueEntry_t => framingEntry k (payloadEntry k v
      { x with creator := k.COMPONENT_CMOTE, owner := k.COMPONENT_CMOTE })) = builtEntry k v := by
    funext x; rfl
  have hb2 : (fun x : OpenQueueEntry_t => openqueue_reset_entry k (framingEntry k (payloadEntry k v
      { x with creator := k.COMPONENT_CMOTE, owner := k.COMPONENT_CMOTE })))
       = fun e => openqueue_reset_entry k (builtEntry k v e) := by
    funext x; rfl
  have hb3 : framingEntry k (payloadEntry k v
      { e with creator := k.COMPONENT_CMOTE, owner := k.COMPONENT_CMOTE }) = builtEntry k v e := rfl
  split <;> simp [hb, hb2, hb3, sendCalls]

theorem cmote_task_cb_unsynch (k : Consts) (fuel : Nat) (s : State) (hs : s.isSynch = false) :
    cmote_task_cb k fuel s = some (s.call Call.ieee154e_isSynch) := by
  simp [cmote_task_cb, ieee154e_isSynch, hs]

theorem cmote_task_cb_root (k : Consts) (fuel : Nat) (s : State)
    (hs : s.isSynch = true) (hr : s.isDAGroot = true) :
    cmote_task_cb k fuel s = some { s with
      timers := modifyAt (fun t => { t with isrunning := false }) s.timers s.cmote_vars.timerId,
      trace := s.trace ++ [Call.ieee154e_isSynch, Call.idmanager_getIsDAGroot,
                           Call.opentimers_stop s.cmote_vars.timerId] } := by
  simp [cmote_task_cb, ieee154e_isSynch, idmanager_getIsDAGroot, opentimers_stop, hs, hr,
    State.call]

theorem cmote_task_cb_sampled (k : Consts) (fuel n : Nat) (s : State)
    (hs : s.isSynch = true) (hr : s.isDAGroot = false)
    (hl : s.adcLatency = some n) (hf : n < fuel) :
    cmote_task_cb k fuel s = some (cmote_task_send k (adcValue k s) (sampled k n s)) := by
  simp only [cmote_task_cb, ieee154e_isSynch, idmanager_getIsDAGroot, hs, hr, State.call,
    SOCADCSingleStart]
  rw [waitEndOfConversion_done n fuel _ hl hf]
  simp [SOCADCDataGet, State.call, adcValue, sampled, sampleCalls, hs, hr]

theorem cmote_task_cb_stall (k : Consts) (fuel : Nat) (s : State)
    (hs : s.isSynch = true) (hr : s.isDAGroot = false)
    (hl : s.adcLatency = none ∨ ∃ n, s.adcLatency = some n ∧ fuel ≤ n) :
    cmote_task_cb k fuel s = none := by
  simp only [cmote_task_cb, ieee154e_isSynch, idmanager_getIsDAGroot, hs, hr, State.call,
    SOCADCSingleStart]
  rcases hl with hl | ⟨n, hl, hf⟩
  · rw [waitEndOfConversion_never fuel _ hl]; simp
  · rw [waitEndOfConversion_short fuel _ n hl hf]; simp

theorem getFree_fst (k : Consts) (c : Nat) (s : State) :
    (openqueue_getFreePacketBuffer k c s).1 = findFree k.COMPONENT_NULL s.queue := by
  unfold openqueue_getFreePacketBuffer
  split <;> simp_all

/-- The state in which a returning cycle leaves the node, path by path. -/
theorem cmote_task_cb_cases (k : Consts) (fuel : Nat) (s t : State)
    (h : cmote_task_cb k fuel s = some t) :
    (s.isSynch = false ∧ t = { s with trace := s.trace ++ [Call.ieee154e_isSynch] }) ∨
    (s.isSynch = true ∧ s.isDAGroot = true ∧ t = { s with
        timers := modifyAt (fun t => { t with isrunning := false }) s.timers s.cmote_vars.timerId,
        trace := s.trace ++ [Call.ieee154e_isSynch, Call.idmanager_getIsDAGroot,
                             Call.opentimers_stop s.cmote_vars.timerId] }) ∨
    (s.isSynch = true ∧ s.isDAGroot = false ∧ ∃ n, s.adcLatency = some n ∧ n < fuel ∧
      findFree k.COMPONENT_NULL s.queue = none ∧
      t = { s with adcCountdown := some 0,
                   trace := s.trace ++ (sampleCalls k n ++ exhaustedCalls k) }) ∨
    (s.isSynch = true ∧ s.isDAGroot = false ∧ ∃ n pkt e, s.adcLatency = some n ∧ n < fuel ∧
      findFree k.COMPONENT_NULL s.queue = some pkt ∧ s.queue[pkt]? = some e ∧
      e.owner = k.COMPONENT_NULL ∧ s.coapOutcome = owerror_t.E_FAIL ∧
      t = { s with adcCountdown := some 0,
                   queue := modifyAt (fun e => openqueue_reset_entry k (builtEntry k (adcValue k s) e))
                              s.queue pkt,
                   trace := s.trace ++ (sampleCalls k n
                     ++ sendCalls k pkt (builtEntry k (adcValue k s) e) s.cmote_vars.desc
                     ++ [Call.openqueue_freePacketBuffer (some pkt)]) }) ∨
    (s.isSynch = true ∧ s.isDAGroot = false ∧ ∃ n pkt e, s.adcLatency = some n ∧ n < fuel ∧
      findFree k.COMPONENT_NULL s.queue = some pkt ∧ s.queue[pkt]? = some e ∧
      e.owner = k.COMPONENT_NULL ∧ s.coapOutcome = owerror_t.E_SUCCESS ∧
      t = { s with adcCountdown := some 0,
                   queue := modifyAt (builtEntry k (adcValue k s)) s.queue pkt,
                   trace := s.trace ++ (sampleCalls k n
                     ++ sendCalls k pkt (builtEntry k (adcValue k s) e) s.cmote_vars.desc) }) := by
  rcases Bool.eq_false_or_eq_true s.isSynch with hs | hs
  · right
    rcases Bool.eq_false_or_eq_true s.isDAGroot with hr | hr
    · left
      rw [cmote_task_cb_root k fuel s hs hr] at h
      cases h
      exact ⟨hs, hr, rfl⟩
    · right
      rcases Option.eq_none_or_eq_some s.adcLatency with hl | ⟨n, hl⟩
      · rw [cmote_task_cb_stall k fuel s hs hr (Or.inl hl)] at h
        cases h
      · by_cases hf : n < fuel
        · rw [cmote_task_cb_sampled k fuel n s hs hr hl hf] at h
          rcases Option.eq_none_or_eq_some (findFree k.COMPONENT_NULL s.queue) with hp | ⟨pkt, hp⟩
          · left
            rw [cmote_task_send_exhausted k _ _ (by simpa [sampled] using hp)] at h
            cases h
            refine ⟨hs, hr, n, hl, hf, hp, ?_⟩
            simp [sampled]
          · right
            obtain ⟨e, he, hfree⟩ := findFree_some hp
            rw [cmote_task_send_built k _ pkt _ e (by simpa [sampled] using hp)
              (by simpa [sampled] using he)] at h
            by_cases ho : s.coapOutcome = owerror_t.E_FAIL
            · left
              simp only [sampled, ho, if_true] at h
              cases h
              refine ⟨hs, hr, n, pkt, e, hl, hf, hp, he, hfree, ho, ?_⟩
              simp [ho]
            · right
              have ho2 : s.coapOutcome = owerror_t.E_SUCCESS := by
                cases hc : s.coapOutcome with
                | E_SUCCESS => rfl
                | E_FAIL => exact absurd hc ho
              simp only [sampled, ho, if_false] at h
              cases h
              refine ⟨hs, hr, n, pkt, e, hl, hf, hp, he, hfree, ho2, ?_⟩
              simp
        · rw [cmote_task_cb_stall k fuel s hs hr (Or.inr ⟨n, hl, by omega⟩)] at h
          cases h
  · left
    rw [cmote_task_cb_unsynch k fuel s hs] at h
    cases h
    exact ⟨hs, rfl⟩

/-! ## The claims -/

/-- C3: in every state in which `ieee154e_isSynch()` is FALSE, one invocation
of `cmote_task_cb` returns (whatever the fuel) having made the single call
`ieee154e_isSynch`: it requests no buffer, makes no ADC call, reports no error,
stops no timer and submits no packet, and every component of the state other
than the record of calls (pool, timers, scheduler, registry, ADC, globals) is
unchanged. -/
theorem cmote_task_cb_not_synch_is_silent (k : Consts) (fuel : Nat) (s : State)
    (hs : s.isSynch = false) :
    ∃ t, cmote_task_cb k fuel s = some t ∧
      t = { s with trace := s.trace ++ [Call.ieee154e_isSynch] } ∧
      callsOf s t = [Call.ieee154e_isSynch] ∧
      (∀ c ∈ callsOf s t, c.isAlloc = false ∧ c.isAdc = false ∧ c.isError = false ∧
        c.isTimerStop = false ∧ c.isSend = false ∧ c.isRelease = false) ∧
      t.queue = s.queue ∧ t.timers = s.timers ∧ t.tasks = s.tasks ∧
      t.resources = s.resources ∧ t.adcCountdown = s.adcCountdown := by
  refine ⟨_, cmote_task_cb_unsynch k fuel s hs, rfl, ?_, ?_, rfl, rfl, rfl, rfl, rfl⟩
  · simp [callsOf, State.call]
  · simp [callsOf, State.call, Call.isAlloc, Call.isAdc, Call.isError, Call.isTimerStop,
      Call.isSend, Call.isRelease]

/-- Witness of C3: the node at boot, not yet synchronized, with a free buffer
in the pool. -/
theorem cmote_task_cb_not_synch_is_silent_witness :
    (boot [freeEntry]).isSynch = false ∧
    ∃ t, cmote_task_cb K0 3 (boot [freeEntry]) = some t ∧ t.queue = [freeEntry] ∧
      callsOf (boot [freeEntry]) t = [Call.ieee154e_isSynch] := by
  refine ⟨rfl, ?_⟩
  obtain ⟨t, h1, _, h3, _, h5, _⟩ :=
    cmote_task_cb_not_synch_is_silent K0 3 (boot [freeEntry]) rfl
  exact ⟨t, h1, h5, h3⟩

/-- C2: a cycle of `cmote_task_cb` that passes both gates while the pool has no
free buffer returns (once the conversion has completed) with the pool
unchanged and still without a free buffer, so it holds none; it reports exactly one error,
`ERR_NO_FREE_PACKET_BUFFER` for `COMPONENT_CMOTE`, submits nothing to
`opencoap_send`, stops no timer, and leaves the synchronization and root-role
state as they were. -/
theorem cmote_task_cb_pool_empty (k : Consts) (fuel n : Nat) (s : State)
    (hs : s.isSynch = true) (hr : s.isDAGroot = false)
    (hl : s.adcLatency = some n) (hf : n < fuel)
    (hp : freeCount k.COMPONENT_NULL s.queue = 0) :
    ∃ t, cmote_task_cb k fuel s = some t ∧
      (openqueue_getFreePacketBuffer k k.COMPONENT_CMOTE s).1 = none ∧
      t.queue = s.queue ∧ freeCount k.COMPONENT_NULL t.queue = 0 ∧
      (callsOf s t).filter Call.isError =
        [Call.openserial_printError k.COMPONENT_CMOTE k.ERR_NO_FREE_PACKET_BUFFER 0 0] ∧
      (callsOf s t).filter Call.isSend = [] ∧
      (callsOf s t).filter Call.isTimerStop = [] ∧
      t.timers = s.timers ∧ t.isSynch = s.isSynch ∧ t.isDAGroot = s.isDAGroot := by
  have hnone : findFree k.COMPONENT_NULL s.queue = none := findFree_none.mpr hp
  refine ⟨{ s with adcCountdown := some 0,
                    trace := s.trace ++ (sampleCalls k n ++ exhaustedCalls k) }, ?_, ?_, ?_⟩
  · rw [cmote_task_cb_sampled k fuel n s hs hr hl hf,
      cmote_task_send_exhausted k _ _ (by simpa [sampled] using hnone)]
    simp [sampled]
  · rw [getFree_fst]; exact hnone
  · refine ⟨rfl, hp, ?_, ?_, ?_, rfl, rfl, rfl⟩ <;>
    simp [callsOf, sampleCalls, exhaustedCalls, List.filter_cons, List.filter_append,
      List.filter_replicate, Call.isError, Call.isSend, Call.isTimerStop]

/-- Witness of C2: a synchronized non-root node whose only buffer is in use. -/
theorem cmote_task_cb_pool_empty_witness :
    (ready false [busyEntry] owerror_t.E_SUCCESS).isSynch = true ∧
    (ready false [busyEntry] owerror_t.E_SUCCESS).isDAGroot = false ∧
    (ready false [busyEntry] owerror_t.E_SUCCESS).adcLatency = some 2 ∧
    freeCount K0.COMPONENT_NULL (ready false [busyEntry] owerror_t.E_SUCCESS).queue = 0 ∧
    ∃ t, cmote_task_cb K0 3 (ready false [busyEntry] owerror_t.E_SUCCESS) = some t ∧
      t.queue = [busyEntry] := by
  refine ⟨rfl, rfl, rfl, rfl, ?_⟩
  obtain ⟨t, h1, _, h3, _⟩ :=
    cmote_task_cb_pool_empty K0 3 2 (ready false [busyEntry] owerror_t.E_SUCCESS)
      rfl rfl rfl (by decide) rfl
  exact ⟨t, h1, h3⟩

/-- C9, as stated, fails: on a synchronized non-root node whose only buffer is
in use, the cycle starts the conversion, polls the flag three times and reads
the data register before it requests a buffer, and it returns from the
pool-exhausted path with those ADC calls made. -/
theorem pool_empty_cycle_has_sampled :
    freeCount K0.COMPONENT_NULL (ready false [busyEntry] owerror_t.E_SUCCESS).queue = 0 ∧
    ∃ t, cmote_task_cb K0 3 (ready false [busyEntry] owerror_t.E_SUCCESS) = some t ∧
      callsOf (ready false [busyEntry] owerror_t.E_SUCCESS) t =
        [Call.ieee154e_isSynch, Call.idmanager_getIsDAGroot, Call.SOCADCSingleStart 6,
         Call.SOCADCEndOfCOnversionGet, Call.SOCADCEndOfCOnversionGet,
         Call.SOCADCEndOfCOnversionGet, Call.SOCADCDataGet,
         Call.openqueue_getFreePacketBuffer 37,
         Call.openserial_printError 37 43 0 0, Call.openqueue_freePacketBuffer none] ∧
      ¬ (∀ c ∈ callsOf (ready false [busyEntry] owerror_t.E_SUCCESS) t, c.isAdc = false) := by
  refine ⟨rfl, _, rfl, rfl, ?_⟩
  intro h
  have := h (Call.SOCADCSingleStart 6) (by decide)
  simp [Call.isAdc] at this

/-- C9, amended: in every cycle of `cmote_task_cb` that passes both gates (and
whose conversion completes), the sampling peripheral is started, polled until
the flag reads true and read before the buffer is requested from the pool; no
ADC call and no further request follow the request.  A cycle that finds the
pool empty therefore returns having started and waited on a conversion. -/
theorem cmote_task_cb_samples_before_alloc (k : Consts) (fuel n : Nat) (s : State)
    (hs : s.isSynch = true) (hr : s.isDAGroot = false)
    (hl : s.adcLatency = some n) (hf : n < fuel) :
    ∃ t rest, cmote_task_cb k fuel s = some t ∧
      callsOf s t =
        [Call.ieee154e_isSynch, Call.idmanager_getIsDAGroot,
         Call.SOCADCSingleStart k.SOCADC_AIN6]
        ++ List.replicate (n + 1) Call.SOCADCEndOfCOnversionGet
        ++ [Call.SOCADCDataGet, Call.openqueue_getFreePacketBuffer k.COMPONENT_CMOTE]
        ++ rest ∧
      (∀ c ∈ rest, c.isAdc = false ∧ c.isAlloc = false) ∧
      (freeCount k.COMPONENT_NULL s.queue = 0 →
        rest = [Call.openserial_printError k.COMPONENT_CMOTE k.ERR_NO_FREE_PACKET_BUFFER 0 0,
                Call.openqueue_freePacketBuffer none]) := by
  have hcyc := cmote_task_cb_sampled k fuel n s hs hr hl hf
  rcases Option.eq_none_or_eq_some (findFree k.COMPONENT_NULL s.queue) with hp | ⟨pkt, hp⟩
  · rw [cmote_task_send_exhausted k _ _ (by simpa [sampled] using hp)] at hcyc
    refine ⟨_, _, hcyc, ?_, ?_, fun _ => rfl⟩
    · simp [callsOf, sampled, sampleCalls, exhaustedCalls]
    · simp [Call.isAdc, Call.isAlloc]
  · obtain ⟨e, he, _⟩ := findFree_some hp
    have hzero : freeCount k.COMPONENT_NULL s.queue ≠ 0 := by
      intro h0
      rw [findFree_none.mpr h0] at hp
      cases hp
    rw [cmote_task_send_built k _ pkt _ e (by simpa [sampled] using hp)
      (by simpa [sampled] using he)] at hcyc
    by_cases ho : s.coapOutcome = owerror_t.E_FAIL
    · simp only [sampled, ho, if_true] at hcyc
      refine ⟨_, (sendCalls k pkt (builtEntry k (adcValue k s) e) s.cmote_vars.desc).tail
        ++ [Call.openqueue_freePacketBuffer (some pkt)], hcyc, ?_, ?_, fun h0 => absurd h0 hzero⟩
      · simp [callsOf, sampleCalls, sendCalls]
      · simp [sendCalls, Call.isAdc, Call.isAlloc]
    · simp only [sampled, ho, if_false] at hcyc
      refine ⟨_, (sendCalls k pkt (builtEntry k (adcValue k s) e) s.cmote_vars.desc).tail,
        hcyc, ?_, ?_, fun h0 => absurd h0 hzero⟩
      · simp [callsOf, sampleCalls, sendCalls]
      · simp [sendCalls, Call.isAdc, Call.isAlloc]

/-- Witness of the amended C9: a synchronized non-root node with a free buffer
whose conversion takes two polls. -/
theorem cmote_task_cb_samples_before_alloc_witness :
    (ready false [freeEntry] owerror_t.E_SUCCESS).isSynch = true ∧
    (ready false [freeEntry] owerror_t.E_SUCCESS).isDAGroot = false ∧
    (ready false [freeEntry] owerror_t.E_SUCCESS).adcLatency = some 2 ∧
    ∃ t rest, cmote_task_cb K0 3 (ready false [freeEntry] owerror_t.E_SUCCESS) = some t ∧
      callsOf (ready false [freeEntry] owerror_t.E_SUCCESS) t =
        [Call.ieee154e_isSynch, Call.idmanager_getIsDAGroot, Call.SOCADCSingleStart 6,
         Call.SOCADCEndOfCOnversionGet, Call.SOCADCEndOfCOnversionGet,
         Call.SOCADCEndOfCOnversionGet, Call.SOCADCDataGet,
         Call.openqueue_getFreePacketBuffer 37] ++ rest := by
  refine ⟨rfl, rfl, rfl, ?_⟩
  obtain ⟨t, rest, h1, h2, _⟩ :=
    cmote_task_cb_samples_before_alloc K0 3 2 (ready false [freeEntry] owerror_t.E_SUCCESS)
      rfl rfl rfl (by decide)
  exact ⟨t, rest, h1, h2⟩

/-- C10: on the pool-exhausted path of `cmote_task_cb` the cycle calls
`openqueue_freePacketBuffer` exactly once, with the null buffer, as its last
call, right after the report of the error.  On every path of every returning
cycle, a release with the null buffer occurs only on the pool-exhausted path,
and a release with a non-null buffer is a release of the buffer the pool
handed out in this cycle. -/
theorem cmote_task_cb_releases_null_when_exhausted (k : Consts) (fuel n : Nat) (s : State)
    (hs : s.isSynch = true) (hr : s.isDAGroot = false)
    (hl : s.adcLatency = some n) (hf : n < fuel)
    (hp : (openqueue_getFreePacketBuffer k k.COMPONENT_CMOTE s).1 = none) :
    (∃ t pre, cmote_task_cb k fuel s = some t ∧
      callsOf s t = pre ++
        [Call.openserial_printError k.COMPONENT_CMOTE k.ERR_NO_FREE_PACKET_BUFFER 0 0,
         Call.openqueue_freePacketBuffer none] ∧
      (callsOf s t).filter Call.isRelease = [Call.openqueue_freePacketBuffer none] ∧
      (∀ c ∈ pre, c.isRelease = false ∧ c.isError = false)) ∧
    (∀ (fuel2 : Nat) (s2 t2 : State), cmote_task_cb k fuel2 s2 = some t2 →
      Call.openqueue_freePacketBuffer none ∈ callsOf s2 t2 →
        s2.isSynch = true ∧ s2.isDAGroot = false ∧
        (openqueue_getFreePacketBuffer k k.COMPONENT_CMOTE s2).1 = none) ∧
    (∀ (fuel2 : Nat) (s2 t2 : State) (pkt : Nat), cmote_task_cb k fuel2 s2 = some t2 →
      Call.openqueue_freePacketBuffer (some pkt) ∈ callsOf s2 t2 →
        (openqueue_getFreePacketBuffer k k.COMPONENT_CMOTE s2).1 = some pkt) := by
  rw [getFree_fst] at hp
  refine ⟨?_, ?_, ?_⟩
  · refine ⟨{ s with adcCountdown := some 0,
                     trace := s.trace ++ (sampleCalls k n ++ exhaustedCalls k) },
      sampleCalls k n ++ [Call.openqueue_getFreePacketBuffer k.COMPONENT_CMOTE], ?_, ?_, ?_, ?_⟩
    · rw [cmote_task_cb_sampled k fuel n s hs hr hl hf,
        cmote_task_send_exhausted k _ _ (by simpa [sampled] using hp)]
      simp [sampled]
    · simp [callsOf, exhaustedCalls]
    · simp [callsOf, sampleCalls, exhaustedCalls, List.filter_cons, List.filter_append,
        List.filter_replicate, Call.isRelease]
    · simp [sampleCalls, Call.isRelease, Call.isError]
  · intro fuel2 s2 t2 h hmem
    rw [getFree_fst]
    rcases cmote_task_cb_cases k fuel2 s2 t2 h with
      ⟨_, ht⟩ | ⟨_, _, ht⟩ | ⟨h1, h2, m, _, _, h3, _⟩ | ⟨_, _, m, p, e, _, _, _, _, _, _, ht⟩ |
      ⟨_, _, m, p, e, _, _, _, _, _, _, ht⟩
    · subst ht; simp [callsOf] at hmem
    · subst ht; simp [callsOf] at hmem
    · exact ⟨h1, h2, h3⟩
    · subst ht; simp [callsOf, sampleCalls, sendCalls] at hmem
    · subst ht; simp [callsOf, sampleCalls, sendCalls] at hmem
  · intro fuel2 s2 t2 pkt h hmem
    rw [getFree_fst]
    rcases cmote_task_cb_cases k fuel2 s2 t2 h with
      ⟨_, ht⟩ | ⟨_, _, ht⟩ | ⟨_, _, m, _, _, _, ht⟩ | ⟨_, _, m, p, e, _, _, h3, _, _, _, ht⟩ |
      ⟨_, _, m, p, e, _, _, _, _, _, _, ht⟩
    · subst ht; simp [callsOf] at hmem
    · subst ht; simp [callsOf] at hmem
    · subst ht; simp [callsOf, sampleCalls, exhaustedCalls] at hmem
    · subst ht; simp [callsOf, sampleCalls, sendCalls] at hmem
      rw [h3, hmem]
    · subst ht; simp [callsOf, sampleCalls, sendCalls] at hmem

/-- Witness of C10: a synchronized non-root node whose only buffer is in use. -/
theorem cmote_task_cb_releases_null_when_exhausted_witness :
    (openqueue_getFreePacketBuffer K0 K0.COMPONENT_CMOTE
      (ready false [busyEntry] owerror_t.E_FAIL)).1 = none ∧
    ∃ t pre, cmote_task_cb K0 4 (ready false [busyEntry] owerror_t.E_FAIL) = some t ∧
      callsOf (ready false [busyEntry] owerror_t.E_FAIL) t = pre ++
        [Call.openserial_printError 37 43 0 0, Call.openqueue_freePacketBuffer none] := by
  refine ⟨rfl, ?_⟩
  obtain ⟨t, pre, h1, h2, _⟩ :=
    (cmote_task_cb_releases_null_when_exhausted K0 4 2
      (ready false [busyEntry] owerror_t.E_FAIL) rfl rfl rfl (by decide) rfl).1
  exact ⟨t, pre, h1, h2⟩

theorem builtEntry_owner (k : Consts) (v : Nat) (e : OpenQueueEntry_t) :
    (builtEntry k v e).owner = k.COMPONENT_CMOTE := rfl

theorem reset_owner (k : Consts) (e : OpenQueueEntry_t) :
    (openqueue_reset_entry k e).owner = k.COMPONENT_NULL := rfl

/-- C1: in a cycle of `cmote_task_cb` that passes both gates and obtains the
buffer `pkt` from the pool, the pool is asked for a buffer exactly once.  When
`opencoap_send` returns `E_FAIL`, the cycle releases `pkt` exactly once, as
its last call, right after the submission, and the pool has as many free
buffers after the cycle as before.  When `opencoap_send` succeeds, the cycle
makes no release call and leaves the pool with one free buffer less; then
`cmote_sendDone` on `pkt`, for every value of its error argument, makes
exactly one call, the release of `pkt`, and the pool is back to its count. -/
theorem cmote_buffer_allocated_once_released_once (k : Consts) (fuel n pkt : Nat) (s : State)
    (hs : s.isSynch = true) (hr : s.isDAGroot = false)
    (hl : s.adcLatency = some n) (hf : n < fuel)
    (hc : k.COMPONENT_CMOTE ≠ k.COMPONENT_NULL)
    (hp : (openqueue_getFreePacketBuffer k k.COMPONENT_CMOTE s).1 = some pkt) :
    ∃ t, cmote_task_cb k fuel s = some t ∧
      (callsOf s t).filter Call.isAlloc =
        [Call.openqueue_getFreePacketBuffer k.COMPONENT_CMOTE] ∧
      (s.coapOutcome = owerror_t.E_FAIL →
        (callsOf s t).filter Call.isRelease = [Call.openqueue_freePacketBuffer (some pkt)] ∧
        (∃ pre c, callsOf s t = pre ++ [c, Call.openqueue_freePacketBuffer (some pkt)] ∧
          c.isSend = true) ∧
        freeCount k.COMPONENT_NULL t.queue = freeCount k.COMPONENT_NULL s.queue) ∧
      (s.coapOutcome = owerror_t.E_SUCCESS →
        (callsOf s t).filter Call.isRelease = [] ∧
        freeCount k.COMPONENT_NULL t.queue + 1 = freeCount k.COMPONENT_NULL s.queue ∧
        ∀ error : owerror_t,
          callsOf t (cmote_sendDone k (some pkt) error t)
            = [Call.openqueue_freePacketBuffer (some pkt)] ∧
          freeCount k.COMPONENT_NULL (cmote_sendDone k (some pkt) error t).queue
            = freeCount k.COMPONENT_NULL s.queue) := by
  rw [getFree_fst] at hp
  obtain ⟨e, he, hfree⟩ := findFree_some hp
  have hcyc := cmote_task_cb_sampled k fuel n s hs hr hl hf
  rw [cmote_task_send_built k _ pkt _ e (by simpa [sampled] using hp)
    (by simpa [sampled] using he)] at hcyc
  have hne : ¬ ((builtEntry k (adcValue k s) e).owner = k.COMPONENT_NULL) := by
    rw [builtEntry_owner]; exact hc
  by_cases ho : s.coapOutcome = owerror_t.E_FAIL
  · simp only [sampled, ho, if_true] at hcyc
    refine ⟨_, hcyc, ?_, ?_, ?_⟩
    · simp [callsOf, sampleCalls, sendCalls, List.filter_cons, List.filter_append,
        List.filter_replicate, Call.isAlloc]
    · intro _
      refine ⟨?_, ⟨sampleCalls k n ++
          (sendCalls k pkt (builtEntry k (adcValue k s) e) s.cmote_vars.desc).take 5,
          Call.opencoap_send pkt (some (builtEntry k (adcValue k s) e)) k.COAP_TYPE_NON
            k.COAP_CODE_REQ_PUT 1 s.cmote_vars.desc, ?_, rfl⟩, ?_⟩
      · simp [callsOf, sampleCalls, sendCalls, List.filter_cons, List.filter_append,
          List.filter_replicate, Call.isRelease]
      · simp [callsOf, sampleCalls, sendCalls]
      · have := freeCount_modifyAt k.COMPONENT_NULL
          (fun e => openqueue_reset_entry k (builtEntry k (adcValue k s) e)) he
        simp only [hfree, reset_owner, if_true] at this
        simpa using this
    · intro h2; rw [ho] at h2; cases h2
  · simp only [sampled, ho, if_false] at hcyc
    refine ⟨_, hcyc, ?_, ?_, ?_⟩
    · simp [callsOf, sampleCalls, sendCalls, List.filter_cons, List.filter_append,
        List.filter_replicate, Call.isAlloc]
    · intro h2; exact absurd h2 ho
    · intro _
      refine ⟨?_, ?_, ?_⟩
      · simp [callsOf, sampleCalls, sendCalls, List.filter_cons, List.filter_append,
          List.filter_replicate, Call.isRelease]
      · have := freeCount_modifyAt k.COMPONENT_NULL
          (builtEntry k (adcValue k s)) he
        simp only [hfree, hne, if_true, if_false] at this
        simpa using this
      · intro error
        refine ⟨?_, ?_⟩
        · simp [callsOf, cmote_sendDone, openqueue_freePacketBuffer]
        · have := freeCount_modifyAt k.COMPONENT_NULL
            (fun e => openqueue_reset_entry k (builtEntry k (adcValue k s) e)) he
          simp only [hfree, reset_owner, if_true] at this
          simpa [cmote_sendDone, openqueue_freePacketBuffer, modifyAt_modifyAt] using this

/-- Witness of C1: a synchronized non-root node with one buffer in use and one
free buffer, whose submission succeeds. -/
theorem cmote_buffer_allocated_once_released_once_witness :
    K0.COMPONENT_CMOTE ≠ K0.COMPONENT_NULL ∧
    (openqueue_getFreePacketBuffer K0 K0.COMPONENT_CMOTE
      (ready false [busyEntry, freeEntry] owerror_t.E_SUCCESS)).1 = some 1 ∧
    ∃ t, cmote_task_cb K0 3 (ready false [busyEntry, freeEntry] owerror_t.E_SUCCESS) = some t ∧
      freeCount K0.COMPONENT_NULL t.queue + 1 = 1 ∧
      freeCount K0.COMPONENT_NULL
        (cmote_sendDone K0 (some 1) owerror_t.E_FAIL t).queue = 1 := by
  refine ⟨by decide, rfl, ?_⟩
  obtain ⟨t, h1, _, _, h4⟩ :=
    cmote_buffer_allocated_once_released_once K0 3 2 1
      (ready false [busyEntry, freeEntry] owerror_t.E_SUCCESS) rfl rfl rfl (by decide)
      (by decide) rfl
  obtain ⟨_, h5, h6⟩ := h4 rfl
  exact ⟨t, h1, h5, (h6 owerror_t.E_FAIL).2⟩

theorem and_255_eq_mod (x : Nat) : x &&& 0xFF = x % 256 := by
  have := Nat.and_pow_two_sub_one_eq_mod x 8
  simpa using this

theorem big_endian_16 (v : Nat) (hv : v < 65536) :
    256 * ((v >>> 8) &&& 0xFF) + (v &&& 0xFF) = v := by
  rw [and_255_eq_mod, and_255_eq_mod, Nat.shiftRight_eq_div_pow]
  norm_num
  omega

theorem samplePayload_length (v : Nat) : (samplePayload v).length = PAYLOADLEN := by
  simp [samplePayload, PAYLOADLEN]

theorem samplePayload_getElem? (v i : Nat) (h2 : 2 ≤ i) (h : i < PAYLOADLEN) :
    (samplePayload v)[i]? = some i := by
  obtain ⟨j, rfl⟩ : ∃ j, i = j + 2 := ⟨i - 2, by omega⟩
  simp only [samplePayload, PAYLOADLEN] at *
  simp only [List.cons_append, List.nil_append, List.getElem?_cons_succ]
  rw [List.getElem?_range' 2 1 (by omega)]
  simp [Nat.add_comm]

theorem builtEntry_drop (k : Consts) (v : Nat) (e : OpenQueueEntry_t) :
    (builtEntry k v e).payload.drop 8 = samplePayload v ++ e.payload := by
  simp [builtEntry, framingEntry, payloadEntry]

/-- C5: for every 16-bit sample `v` (so for every `v` in 0..4095), the payload
stage of `cmote_task_cb` grows the payload region of the buffer by exactly
`PAYLOADLEN` = 40 bytes in front of what it held, with `payload[0]` =
`(v >> 8) & 0xFF` and `payload[1]` = `v & 0xFF`, which are the big-endian
encoding of `v` (256 * payload[0] + payload[1] = v), and `payload[i]` = `i` for
`2 <= i < 40`.  In every cycle that reaches submission the sample is a 16-bit
value and these are the bytes of the submitted buffer behind the 8 bytes of
options. -/
theorem cmote_payload_big_endian (k : Consts) (v pkt : Nat) (s : State) (e : OpenQueueEntry_t)
    (hv : v < 65536) (he : s.queue[pkt]? = some e) :
    PAYLOADLEN = 40 ∧
    (∃ p, (cmote_task_payload k v pkt s).queue[pkt]? = some p ∧
      p.payload.length = PAYLOADLEN + e.payload.length ∧
      p.payload.drop PAYLOADLEN = e.payload ∧
      p.payload[0]? = some ((v >>> 8) &&& 0xFF) ∧
      p.payload[1]? = some (v &&& 0xFF) ∧
      256 * ((v >>> 8) &&& 0xFF) + (v &&& 0xFF) = v ∧
      (v >>> 8) &&& 0xFF < 256 ∧ v &&& 0xFF < 256 ∧
      ∀ i, 2 ≤ i → i < PAYLOADLEN → p.payload[i]? = some i) ∧
    (∀ (fuel n pkt2 : Nat) (s2 : State), s2.isSynch = true → s2.isDAGroot = false →
      s2.adcLatency = some n → n < fuel →
      (openqueue_getFreePacketBuffer k k.COMPONENT_CMOTE s2).1 = some pkt2 →
      adcValue k s2 < 65536 ∧
      ∃ (t : State) (msg : OpenQueueEntry_t), cmote_task_cb k fuel s2 = some t ∧
        Call.opencoap_send pkt2 (some msg) k.COAP_TYPE_NON k.COAP_CODE_REQ_PUT 1
          s2.cmote_vars.desc ∈ callsOf s2 t ∧
        msg.payload[8]? = some ((adcValue k s2 >>> 8) &&& 0xFF) ∧
        msg.payload[9]? = some (adcValue k s2 &&& 0xFF) ∧
        ∀ i, 2 ≤ i → i < PAYLOADLEN → msg.payload[8 + i]? = some i) := by
  refine ⟨rfl, ⟨payloadEntry k v e, ?_, ?_, ?_, ?_, ?_, big_endian_16 v hv, ?_, ?_, ?_⟩, ?_⟩
  · rw [cmote_task_payload_eq]
    simp [getElem?_modifyAt, he]
  · simp [payloadEntry, samplePayload_length]
  · simp only [payloadEntry]
    rw [← samplePayload_length v, List.drop_left]
  · simp [payloadEntry, samplePayload]
  · simp [payloadEntry, samplePayload]
  · rw [and_255_eq_mod]; omega
  · rw [and_255_eq_mod]; omega
  · intro i h2 h
    simp only [payloadEntry]
    rw [List.getElem?_append_left (by rw [samplePayload_length]; exact h)]
    exact samplePayload_getElem? v i h2 h
  · intro fuel n pkt2 s2 hs hr hl hf hp
    rw [getFree_fst] at hp
    obtain ⟨e2, he2, _⟩ := findFree_some hp
    have hcyc := cmote_task_cb_sampled k fuel n s2 hs hr hl hf
    rw [cmote_task_send_built k _ pkt2 _ e2 (by simpa [sampled] using hp)
      (by simpa [sampled] using he2)] at hcyc
    have hdrop := builtEntry_drop k (adcValue k s2) e2
    have hget : ∀ i, (builtEntry k (adcValue k s2) e2).payload[8 + i]?
        = (samplePayload (adcValue k s2) ++ e2.payload)[i]? := by
      intro i
      rw [← hdrop, List.getElem?_drop]
    refine ⟨Nat.mod_lt _ (by norm_num), _, builtEntry k (adcValue k s2) e2, hcyc, ?_,
      ?_, ?_, ?_⟩
    · split <;> simp [callsOf, sampled, sampleCalls, sendCalls]
    · rw [show (8 : Nat) = 8 + 0 from rfl, hget 0]
      simp [samplePayload]
    · rw [show (9 : Nat) = 8 + 1 from rfl, hget 1]
      simp [samplePayload]
    · intro i h2 h
      rw [hget i, List.getElem?_append_left (by rw [samplePayload_length]; exact h)]
      exact samplePayload_getElem? (adcValue k s2) i h2 h

/-- Witness of C5: the sample 0x0ABC in the free buffer of a pool gives
`payload[0]` = 0x0A and `payload[1]` = 0xBC. -/
theorem cmote_payload_big_endian_witness :
    (0x0ABC : Nat) < 65536 ∧
    (ready false [freeEntry] owerror_t.E_SUCCESS).queue[0]? = some freeEntry ∧
    ∃ p, (cmote_task_payload K0 0x0ABC 0
        (ready false [freeEntry] owerror_t.E_SUCCESS)).queue[0]? = some p ∧
      p.payload[0]? = some 0x0A ∧ p.payload[1]? = some 0xBC := by
  refine ⟨by decide, rfl, ?_⟩
  obtain ⟨_, ⟨p, h1, _, _, h4, h5, _⟩, _⟩ :=
    cmote_payload_big_endian K0 0x0ABC 0 (ready false [freeEntry] owerror_t.E_SUCCESS)
      freeEntry (by decide) rfl
  exact ⟨p, h1, h4, h5⟩

theorem option_header_byte (x len : Nat) (hx : x < 16) (hl : len < 16) :
    ((x <<< 4) ||| len) % 256 = (x <<< 4) ||| len ∧ ((x <<< 4) ||| len) % 16 = len := by
  interval_cases x <;> interval_cases len <;> decide

/-- The framing stage prepends the two options to the payload region. -/
theorem framingEntry_payload (k : Consts) (hk : k.WellFormed) (e : OpenQueueEntry_t) :
    (framingEntry k e).payload =
      [(k.COAP_OPTION_NUM_URIPATH <<< 4) ||| 5] ++ "cmote".toList.map Char.toNat
      ++ [((k.COAP_OPTION_NUM_CONTENTFORMAT - k.COAP_OPTION_NUM_URIPATH) <<< 4) ||| 1,
          k.COAP_MEDTYPE_APPOCTETSTREAM]
      ++ e.payload := by
  obtain ⟨h1, _, h3, h4⟩ := hk
  simp only [framingEntry]
  rw [(option_header_byte _ 5 h1 (by norm_num)).1, (option_header_byte _ 1 h3 (by norm_num)).1,
    Nat.mod_eq_of_lt h4]
  rfl

/-- C6: in every cycle that reaches submission, the buffer handed to
`opencoap_send` reads, from its front: the path option (the byte
`(COAP_OPTION_NUM_URIPATH << 4) | 5`, then the 5 bytes "cmote"), the
content-type option (the byte
`((COAP_OPTION_NUM_CONTENTFORMAT - COAP_OPTION_NUM_URIPATH) << 4) | 1`, then
`COAP_MEDTYPE_APPOCTETSTREAM`), then the 40 payload bytes, then what the
buffer held before.  The framing stage leaves the bytes behind the 8 it
prepends as they were, the cycle reserves 48 bytes in all, and the low nibble
of each option header is the number of value bytes that follow it. -/
theorem cmote_wire_order (k : Consts) (fuel n pkt : Nat) (s : State)
    (hs : s.isSynch = true) (hr : s.isDAGroot = false)
    (hl : s.adcLatency = some n) (hf : n < fuel) (hk : k.WellFormed)
    (hp : (openqueue_getFreePacketBuffer k k.COMPONENT_CMOTE s).1 = some pkt) :
    (∃ (t : State) (e msg : OpenQueueEntry_t),
      cmote_task_cb k fuel s = some t ∧ s.queue[pkt]? = some e ∧
      (callsOf s t).filter Call.isSend =
        [Call.opencoap_send pkt (some msg) k.COAP_TYPE_NON k.COAP_CODE_REQ_PUT 1
          s.cmote_vars.desc] ∧
      msg.payload =
        [(k.COAP_OPTION_NUM_URIPATH <<< 4) ||| 5] ++ "cmote".toList.map Char.toNat
        ++ [((k.COAP_OPTION_NUM_CONTENTFORMAT - k.COAP_OPTION_NUM_URIPATH) <<< 4) ||| 1,
            k.COAP_MEDTYPE_APPOCTETSTREAM]
        ++ samplePayload (adcValue k s) ++ e.payload ∧
      msg.payload.length = 48 + e.payload.length ∧
      ((callsOf s t).map Call.reserved).sum = 48) ∧
    (∀ (pkt1 : Nat) (s1 : State) (e1 : OpenQueueEntry_t), s1.queue[pkt1]? = some e1 →
      ∃ m, (cmote_task_framing k pkt1 s1).queue[pkt1]? = some m ∧
        m.payload.drop 8 = e1.payload) ∧
    ((k.COAP_OPTION_NUM_URIPATH <<< 4) ||| 5) % 16 = ("cmote".toList.map Char.toNat).length ∧
    (((k.COAP_OPTION_NUM_CONTENTFORMAT - k.COAP_OPTION_NUM_URIPATH) <<< 4) ||| 1) % 16
      = [k.COAP_MEDTYPE_APPOCTETSTREAM].length := by
  rw [getFree_fst] at hp
  obtain ⟨e, he, _⟩ := findFree_some hp
  have hcyc := cmote_task_cb_sampled k fuel n s hs hr hl hf
  rw [cmote_task_send_built k _ pkt _ e (by simpa [sampled] using hp)
    (by simpa [sampled] using he)] at hcyc
  have hpay : (builtEntry k (adcValue k s) e).payload =
      [(k.COAP_OPTION_NUM_URIPATH <<< 4) ||| 5] ++ "cmote".toList.map Char.toNat
        ++ [((k.COAP_OPTION_NUM_CONTENTFORMAT - k.COAP_OPTION_NUM_URIPATH) <<< 4) ||| 1,
            k.COAP_MEDTYPE_APPOCTETSTREAM]
        ++ samplePayload (adcValue k s) ++ e.payload := by
    simp only [builtEntry]
    rw [framingEntry_payload k hk]
    simp [payloadEntry]
  have hlen : (builtEntry k (adcValue k s) e).payload.length = 48 + e.payload.length := by
    rw [hpay]
    simp [samplePayload_length, PAYLOADLEN]
    omega
  refine ⟨⟨_, e, builtEntry k (adcValue k s) e, hcyc, he, ?_, hpay, hlen, ?_⟩, ?_,
    (option_header_byte _ 5 hk.1 (by norm_num)).2,
    (option_header_byte _ 1 hk.2.2.1 (by norm_num)).2⟩
  · split <;>
    simp [callsOf, sampled, sampleCalls, sendCalls, List.filter_cons, List.filter_append,
      List.filter_replicate, Call.isSend]
  · split <;>
    simp [callsOf, sampled, sampleCalls, sendCalls, Call.reserved]
  · intro pkt1 s1 e1 he1
    refine ⟨framingEntry k e1, ?_, ?_⟩
    · rw [cmote_task_framing_eq]
      simp [getElem?_modifyAt, he1]
    · simp [framingEntry]

/-- Witness of C6: a synchronized non-root node with a free buffer; the
submitted buffer starts with 0xB5 "cmote" 0x11 0x2A 0x0A 0xBC. -/
theorem cmote_wire_order_witness :
    K0.WellFormed ∧
    (openqueue_getFreePacketBuffer K0 K0.COMPONENT_CMOTE
      (ready false [freeEntry] owerror_t.E_SUCCESS)).1 = some 0 ∧
    ∃ (t : State) (e msg : OpenQueueEntry_t),
      cmote_task_cb K0 3 (ready false [freeEntry] owerror_t.E_SUCCESS) = some t ∧
      (ready false [freeEntry] owerror_t.E_SUCCESS).queue[0]? = some e ∧
      msg.payload = [0xB5] ++ [0x63, 0x6d, 0x6f, 0x74, 0x65] ++ [0x11, 0x2A]
        ++ samplePayload 0x0ABC ++ e.payload := by
  have hk : K0.WellFormed := by
    simp [Consts.WellFormed, K0]
  refine ⟨hk, rfl, ?_⟩
  obtain ⟨t, e, msg, h1, h2, _, h4, _⟩ :=
    (cmote_wire_order K0 3 2 0 (ready false [freeEntry] owerror_t.E_SUCCESS)
      rfl rfl rfl (by decide) hk rfl).1
  exact ⟨t, e, msg, h1, h2, h4⟩

/-- C7 (evaluation at boot): `cmote_init` on the zero-initialised node
registers with `opencoap_register` exactly one descriptor, with path "cmote"
(`path0len` = 5, `path1len` = 0), component `COMPONENT_CMOTE` and the handlers
`cmote_recieve` and `cmote_sendDone`, but with the discoverability flag FALSE:
the assignment of TRUE goes to `cexample_vars.desc.discoverable`. -/
theorem cmote_init_registers_not_discoverable (k : Consts) (queue : List OpenQueueEntry_t) :
    (cmote_init k (boot queue)).resources =
      [{ path0len := 5, path0val := some cmote_path0, path1len := 0, path1val := none,
         componentID := k.COMPONENT_CMOTE, discoverable := false,
         callbackRx := some Callback.cmote_recieve,
         callbackSendDone := some Callback.cmote_sendDone }] ∧
    (cmote_init k (boot queue)).cmote_vars.desc.discoverable = false ∧
    (cmote_init k (boot queue)).cexample_vars.desc.discoverable = true ∧
    (cmote_init k (boot queue)).cmote_vars.desc.path0val.map (List.take 5)
      = some ("cmote".toList.map Char.toNat) := by
  refine ⟨rfl, rfl, rfl, rfl⟩

/-- C8: for every inbound message, header and option list, and in every
state, `cmote_recieve` returns `E_FAIL`, which is not `E_SUCCESS`, and leaves
the header, the options and the state (so the message buffer) unchanged. -/
theorem cmote_recieve_always_fails {H O : Type} (msg : Option Nat) (coap_header : H)
    (coap_options : O) (s : State) :
    (cmote_recieve msg coap_header coap_options s).1 = owerror_t.E_FAIL ∧
    (cmote_recieve msg coap_header coap_options s).1 ≠ owerror_t.E_SUCCESS ∧
    (cmote_recieve msg coap_header coap_options s).2.1 = coap_header ∧
    (cmote_recieve msg coap_header coap_options s).2.2.1 = coap_options ∧
    (cmote_recieve msg coap_header coap_options s).2.2.2 = s := by
  refine ⟨rfl, ?_, rfl, rfl, rfl⟩
  simp [cmote_recieve]

/-! ## Lemmas on the timer -/

theorem opentimers_fire_off (k : Consts) (s : State) (h : TimerOff s) :
    opentimers_fire k s.cmote_vars.timerId s = s := by
  unfold opentimers_fire
  split
  · rfl
  · next x hx => simp [h x hx]

theorem timerOff_stop (timers : List opentimers_t) (id : Nat) (x : opentimers_t)
    (h : (modifyAt (fun t => { t with isrunning := false }) timers id)[id]? = some x) :
    x.isrunning = false := by
  rw [getElem?_modifyAt] at h
  cases hx : timers[id]? with
  | none => simp [hx] at h
  | some y => simp [hx] at h; subst h; rfl

theorem cmote_task_cb_timerOff (k : Consts) (fuel : Nat) (s t : State)
    (h : cmote_task_cb k fuel s = some t) (hoff : TimerOff s) : TimerOff t := by
  rcases cmote_task_cb_cases k fuel s t h with
    ⟨_, ht⟩ | ⟨_, _, ht⟩ | ⟨_, _, m, _, _, _, ht⟩ | ⟨_, _, m, p, e, _, _, _, _, _, _, ht⟩ |
    ⟨_, _, m, p, e, _, _, _, _, _, _, ht⟩
  · subst ht; exact hoff
  · subst ht; intro x hx; exact timerOff_stop _ _ x hx
  · subst ht; exact hoff
  · subst ht; exact hoff
  · subst ht; exact hoff

theorem step_timerOff (k : Consts) (ev : Event) (s t : State)
    (h : step k ev s = some t) (hoff : TimerOff s) : TimerOff t := by
  cases ev with
  | fire =>
    simp only [step, opentimers_fire_off k s hoff, Option.some.injEq] at h
    subst h; exact hoff
  | dispatch fuel =>
    simp only [step, scheduler_dispatch] at h
    split at h
    · cases h; exact hoff
    · exact cmote_task_cb_timerOff k fuel _ t h hoff
    · cases h; exact hoff
  | sendDone msg error =>
    simp only [step, cmote_sendDone, Option.some.injEq] at h
    subst h
    unfold openqueue_freePacketBuffer
    split <;> exact hoff
  | env a b c d e =>
    simp only [step, Option.some.injEq] at h
    subst h; exact hoff

theorem run_timerOff (k : Consts) (evs : List Event) : ∀ s : State, TimerOff s →
    run k evs s = run k (evs.filter (fun ev => !ev.isFire)) s := by
  induction evs with
  | nil => intro s _; rfl
  | cons ev evs ih =>
    intro s hoff
    cases ev with
    | fire =>
      simp only [run, step, opentimers_fire_off k s hoff, Event.isFire, Bool.not_true,
        List.filter_cons, Bool.false_eq_true, if_false]
      exact ih s hoff
    | dispatch fuel =>
      simp only [run, Event.isFire, Bool.not_false, List.filter_cons, if_true]
      cases hstep : step k (Event.dispatch fuel) s with
      | none => rfl
      | some t => exact ih t (step_timerOff k _ s t hstep hoff)
    | sendDone msg error =>
      simp only [run, Event.isFire, Bool.not_false, List.filter_cons, if_true]
      cases hstep : step k (Event.sendDone msg error) s with
      | none => rfl
      | some t => exact ih t (step_timerOff k _ s t hstep hoff)
    | env a b c d e =>
      simp only [run, Event.isFire, Bool.not_false, List.filter_cons, if_true]
      cases hstep : step k (Event.env a b c d e) s with
      | none => rfl
      | some t => exact ih t (step_timerOff k _ s t hstep hoff)

theorem run_idle (k : Consts) (evs : List Event) : ∀ s : State, TimerOff s → s.tasks = [] →
    ∃ u cs, run k evs s = some u ∧ u.trace = s.trace ++ cs ∧
      ∀ c ∈ cs, c.isRelease = true := by
  induction evs with
  | nil => intro s _ _; exact ⟨s, [], rfl, by simp, by simp⟩
  | cons ev evs ih =>
    intro s hoff htasks
    cases ev with
    | fire =>
      simp only [run, step, opentimers_fire_off k s hoff]
      exact ih s hoff htasks
    | dispatch fuel =>
      simp only [run, step, scheduler_dispatch, htasks]
      exact ih s hoff htasks
    | sendDone msg error =>
      have hstep : step k (Event.sendDone msg error) s
          = some (cmote_sendDone k msg error s) := rfl
      have hoff2 := step_timerOff k _ s _ hstep hoff
      have ht2 : (cmote_sendDone k msg error s).tasks = [] := by
        unfold cmote_sendDone openqueue_freePacketBuffer
        split <;> exact htasks
      have htr : (cmote_sendDone k msg error s).trace
          = s.trace ++ [Call.openqueue_freePacketBuffer msg] := by
        unfold cmote_sendDone openqueue_freePacketBuffer
        split <;> rfl
      obtain ⟨u, cs, hu, hcs, hrel⟩ := ih _ hoff2 ht2
      refine ⟨u, Call.openqueue_freePacketBuffer msg :: cs, ?_, ?_, ?_⟩
      · simp only [run, hstep]; exact hu
      · rw [hcs, htr]; simp
      · intro c hc
        rcases List.mem_cons.mp hc with rfl | hc
        · rfl
        · exact hrel c hc
    | env a b c d e =>
      simp only [run, step]
      exact ih _ hoff htasks

/-- C4: a cycle of `cmote_task_cb` on a synchronized root node returns having
made exactly the calls `ieee154e_isSynch`, `idmanager_getIsDAGroot` and
`opentimers_stop(cmote_vars.timerId)`: no sampling, no buffer allocation, no
submission.  After it the timer is off; with a timer that does not fire once
stopped, every later fire is without effect in every run of the node, and
when no task was pending no later run makes an ADC call, requests a buffer or
submits a packet.  Conversely, in every returning cycle a timer is stopped if
and only if the node is synchronized and root, the timer stopped is
`cmote_vars.timerId`, and on every other path (not synchronized, pool
exhausted, submission failed or succeeded) the timers are unchanged. -/
theorem cmote_timer_stopped_only_by_root (k : Consts) (fuel : Nat) (s : State)
    (hs : s.isSynch = true) (hr : s.isDAGroot = true) :
    (∃ t, cmote_task_cb k fuel s = some t ∧
      callsOf s t = [Call.ieee154e_isSynch, Call.idmanager_getIsDAGroot,
                     Call.opentimers_stop s.cmote_vars.timerId] ∧
      t.queue = s.queue ∧
      (∀ x, t.timers[t.cmote_vars.timerId]? = some x → x.isrunning = false) ∧
      opentimers_fire k t.cmote_vars.timerId t = t ∧
      (∀ evs : List Event, run k evs t = run k (evs.filter (fun ev => !ev.isFire)) t) ∧
      (s.tasks = [] → ∀ evs : List Event, ∃ u, run k evs t = some u ∧
        ∀ c ∈ callsOf t u, c.isAdc = false ∧ c.isAlloc = false ∧ c.isSend = false)) ∧
    (∀ (fuel2 : Nat) (s2 t2 : State), cmote_task_cb k fuel2 s2 = some t2 →
      ((∃ c ∈ callsOf s2 t2, c.isTimerStop = true) ↔
        (s2.isSynch = true ∧ s2.isDAGroot = true)) ∧
      (∀ c ∈ callsOf s2 t2, c.isTimerStop = true →
        c = Call.opentimers_stop s2.cmote_vars.timerId) ∧
      (¬ (s2.isSynch = true ∧ s2.isDAGroot = true) → t2.timers = s2.timers)) := by
  constructor
  · have hcyc := cmote_task_cb_root k fuel s hs hr
    have hoff : TimerOff { s with
        timers := modifyAt (fun t => { t with isrunning := false }) s.timers s.cmote_vars.timerId,
        trace := s.trace ++ [Call.ieee154e_isSynch, Call.idmanager_getIsDAGroot,
                             Call.opentimers_stop s.cmote_vars.timerId] } := by
      intro x hx; exact timerOff_stop _ _ x hx
    refine ⟨_, hcyc, ?_, rfl, hoff, opentimers_fire_off k _ hoff,
      fun evs => run_timerOff k evs _ hoff, ?_⟩
    · simp [callsOf]
    · intro htasks evs
      obtain ⟨u, cs, hu, hcs, hrel⟩ := run_idle k evs _ hoff htasks
      refine ⟨u, hu, ?_⟩
      intro c hc
      have hc2 : c ∈ cs := by
        simpa [callsOf, hcs] using hc
      have := hrel c hc2
      cases c <;> simp_all [Call.isRelease, Call.isAdc, Call.isAlloc, Call.isSend]
  · intro fuel2 s2 t2 h
    rcases cmote_task_cb_cases k fuel2 s2 t2 h with
      ⟨h1, ht⟩ | ⟨h1, h2, ht⟩ | ⟨h1, h2, m, _, _, _, ht⟩ |
      ⟨h1, h2, m, p, e, _, _, _, _, _, _, ht⟩ | ⟨h1, h2, m, p, e, _, _, _, _, _, _, ht⟩
    · subst ht
      simp [callsOf, Call.isTimerStop, h1]
    · subst ht
      simp [callsOf, Call.isTimerStop, h1, h2]
    · subst ht
      simp [callsOf, sampleCalls, exhaustedCalls, Call.isTimerStop, h1, h2]
    · subst ht
      simp [callsOf, sampleCalls, sendCalls, Call.isTimerStop, h1, h2]
    · subst ht
      simp [callsOf, sampleCalls, sendCalls, Call.isTimerStop, h1, h2]

/-- Witness of C4: a synchronized root node after `cmote_init`; the cycle stops
timer 0, and two later periods with the scheduler running in between add no
call. -/
theorem cmote_timer_stopped_only_by_root_witness :
    (ready true [freeEntry] owerror_t.E_SUCCESS).isSynch = true ∧
    (ready true [freeEntry] owerror_t.E_SUCCESS).isDAGroot = true ∧
    (ready true [freeEntry] owerror_t.E_SUCCESS).tasks = [] ∧
    ∃ t, cmote_task_cb K0 3 (ready true [freeEntry] owerror_t.E_SUCCESS) = some t ∧
      callsOf (ready true [freeEntry] owerror_t.E_SUCCESS) t =
        [Call.ieee154e_isSynch, Call.idmanager_getIsDAGroot, Call.opentimers_stop 0] ∧
      ∃ u, run K0 [Event.fire, Event.dispatch 3, Event.fire, Event.dispatch 3] t = some u ∧
        ∀ c ∈ callsOf t u, c.isAdc = false ∧ c.isAlloc = false ∧ c.isSend = false := by
  refine ⟨rfl, rfl, rfl, ?_⟩
  obtain ⟨t, h1, h2, _, _, _, _, h7⟩ :=
    (cmote_timer_stopped_only_by_root K0 3 (ready true [freeEntry] owerror_t.E_SUCCESS)
      rfl rfl).1
  exact ⟨t, h1, h2, h7 rfl _⟩

end Cmote
